import Mathlib

/-!
Verification of the TTL cache (`Cache` / `DatabaseCache`) from `SqlWrapper.py`.

The cache is embedded shallowly:
* the Python dict `self._cache` becomes an association list `Storage` with
  unique keys maintained by construction (`dictGet`, `dictSet`, `dictPop`,
  `dictErase` mirror `d[k]`, `d[k] = v`, `d.pop(k)` semantics);
* the history list `self.__history` (most-recent-first) becomes
  `List HistEntry`;
* UTC timestamps become `Nat` ticks, a `System.TimeSpan` TTL becomes `Int`
  ticks, and `DateTime.UtcNow` is passed explicitly as a `now` argument;
* a null/missing timestamp is `Option.none` (Python `None` is falsy,
  a real `DateTime` is truthy);
* raised exceptions become `Except CacheError`: `KeyError` ↦ `keyError`,
  `ValueError` ↦ `valueError`, `NotImplementedError` ↦ `notImplementedError`.
-/

namespace SqlWrapper

/-- Exceptions the cache code can raise. -/
inductive CacheError where
  | keyError
  | valueError
  | notImplementedError
deriving DecidableEq

/-- The stored envelope `{"value": value, "date": now}` of `DatabaseCache.__setitem__`. -/
structure Item where
  value : Nat
  date : Option Nat
deriving DecidableEq

/-- A history record `{"key": key, "date": now}` of `DatabaseCache.__setitem__`. -/
structure HistEntry where
  key : Nat
  date : Option Nat
deriving DecidableEq

/-- The dict `self._cache`, modelled as an association list with unique keys. -/
abbrev Storage := List (Nat × Item)

/-- Python `key in d`. -/
def dictContains (c : Storage) (k : Nat) : Bool :=
  c.any (fun p => p.fst = k)

/-- Python `d.get(key)` / guarded `d[key]`. -/
def dictGet : Storage → Nat → Option Item
  | [], _ => none
  | (k', v) :: rest, k => if k' = k then some v else dictGet rest k

/-- Python `d[key] = value`: replace in place if present, append if new. -/
def dictSet : Storage → Nat → Item → Storage
  | [], k, v => [(k, v)]
  | (k', v') :: rest, k, v =>
    if k' = k then (k', v) :: rest else (k', v') :: dictSet rest k v

/-- Remove the first binding of `k` (the only one, since keys are unique). -/
def dictErase : Storage → Nat → Storage
  | [], _ => []
  | (k', v') :: rest, k => if k' = k then rest else (k', v') :: dictErase rest k

/-- Python `d.pop(key)` with no default: `none` models the raised `KeyError`. -/
def dictPop (c : Storage) (k : Nat) : Option Storage :=
  if dictContains c k then some (dictErase c k) else none

/-- The state of a `DatabaseCache` instance: the fixed TTL (`TimeSpan` ticks),
the dict `self._cache` and the list `self.__history` (most-recent-first). -/
structure DatabaseCache where
  time_to_live : Int
  cache : Storage
  history : List HistEntry
deriving DecidableEq

/-- Python `DatabaseCache.has_expired`: true when the timestamp is null/missing, or
when `now - timestamp > time_to_live` (strict). -/
def has_expired (ttl : Int) (now : Nat) (d : Option Nat) : Bool :=
  match d with
  | none => true
  | some t => decide (((now : Int) - (t : Int)) > ttl)

/-- Python `DatabaseCache._is_valid`: reads `self._cache[key]["date"]` (raising
`KeyError` when the key is absent) and negates `has_expired`. -/
def DatabaseCache.is_valid (s : DatabaseCache) (now : Nat) (k : Nat) :
    Except CacheError Bool :=
  match dictGet s.cache k with
  | none => .error .keyError
  | some item => .ok (! has_expired s.time_to_live now item.date)

/-- Python `DatabaseCache.__getitem__`: `Cache.__getitem__` (raise `KeyError` unless
`_is_valid`, else return the stored item) followed by unwrapping `item["value"]`. -/
def DatabaseCache.getitem (s : DatabaseCache) (now : Nat) (k : Nat) :
    Except CacheError Nat :=
  match s.is_valid now k with
  | .error e => .error e
  | .ok false => .error .keyError
  | .ok true =>
    match dictGet s.cache k with
    | none => .error .keyError
    | some item => .ok item.value

/-- The `while` loop of `DatabaseCache._remove_invalid`, acting on the history
in oldest-first order (the reverse of the stored order): while the oldest entry
has expired, `self._cache.pop(oldest["key"])` (raising `KeyError` if absent)
and drop the entry; stop at the first non-expired entry. -/
def sweepRev (ttl : Int) (now : Nat) :
    Storage → List HistEntry → Except CacheError (Storage × List HistEntry)
  | c, [] => .ok (c, [])
  | c, e :: rest =>
    if has_expired ttl now e.date then
      match dictPop c e.key with
      | none => .error .keyError
      | some c' => sweepRev ttl now c' rest
    else .ok (c, e :: rest)

/-- Python `DatabaseCache._remove_invalid`: run the sweep loop from the tail of
`self.__history` (the oldest entry). -/
def DatabaseCache.remove_invalid (s : DatabaseCache) (now : Nat) :
    Except CacheError DatabaseCache :=
  match sweepRev s.time_to_live now s.cache s.history.reverse with
  | .error e => .error e
  | .ok (c, rh) => .ok { s with cache := c, history := rh.reverse }

/-- Python `DatabaseCache.__setitem__`: sweep first, compute `is_new`, store
`{"value": value, "date": now}`, and prepend `{"key": key, "date": now}` to
the history only when the key is new. -/
def DatabaseCache.setitem (s : DatabaseCache) (now : Nat) (k : Nat) (v : Nat) :
    Except CacheError DatabaseCache :=
  match s.remove_invalid now with
  | .error e => .error e
  | .ok s1 =>
    let is_new := ! dictContains s1.cache k
    let item : Item := { value := v, date := some now }
    let s2 : DatabaseCache := { s1 with cache := dictSet s1.cache k item }
    if is_new then
      .ok { s2 with history := { key := k, date := some now } :: s2.history }
    else
      .ok s2

/-- Python `Cache.__delitem__`: `self._cache.pop(key)` with no default, so an absent
key raises `KeyError`. -/
def DatabaseCache.delitem (s : DatabaseCache) (k : Nat) :
    Except CacheError DatabaseCache :=
  match dictPop s.cache k with
  | none => .error .keyError
  | some c => .ok { s with cache := c }

/-- Python `Cache.__len__`: `len(self._cache)`. -/
def DatabaseCache.size (s : DatabaseCache) : Nat :=
  s.cache.length

/-- Python `Cache.clear`: `popitem` until the dict is empty; the history is untouched. -/
def DatabaseCache.clear (s : DatabaseCache) : DatabaseCache :=
  { s with cache := [] }

/-- The constructor argument: either a real `System.TimeSpan` (its ticks) or a
value of some other type, which `isinstance` rejects. -/
inductive TTLArg where
  | timeSpan (ticks : Int)
  | notTimeSpan
deriving DecidableEq

/-- Python `DatabaseCache.__init__`: raise `ValueError` unless the argument is a
`System.TimeSpan`; otherwise store it with empty storage and empty history. -/
def DatabaseCache.mk_new : TTLArg → Except CacheError DatabaseCache
  | .timeSpan t => .ok { time_to_live := t, cache := [], history := [] }
  | .notTimeSpan => .error .valueError

/-- The sweep loop with an explicit iteration budget: `none` means the budget
was exhausted before the loop finished. Used to express termination of
`_remove_invalid` within `len(history)` iterations. -/
def sweepRevFuel (ttl : Int) (now : Nat) :
    Nat → Storage → List HistEntry → Option (Except CacheError (Storage × List HistEntry))
  | 0, _, _ => none
  | _ + 1, c, [] => some (.ok (c, []))
  | fuel + 1, c, e :: rest =>
    if has_expired ttl now e.date then
      match dictPop c e.key with
      | none => some (.error .keyError)
      | some c' => sweepRevFuel ttl now fuel c' rest
    else some (.ok (c, e :: rest))

/-- One `set(key, value, at_time)` call, for describing call sequences. -/
structure SetCall where
  key : Nat
  value : Nat
  time : Nat
deriving DecidableEq

/-- The storage pair a `SetCall` leaves behind when its key is new. -/
def SetCall.toPair (sc : SetCall) : Nat × Item :=
  (sc.key, { value := sc.value, date := some sc.time })

/-- The history entry a `SetCall` leaves behind when its key is new. -/
def SetCall.toEntry (sc : SetCall) : HistEntry :=
  { key := sc.key, date := some sc.time }

/-- Run a sequence of `set` calls, stopping at the first raised exception. -/
def setAll : DatabaseCache → List SetCall → Except CacheError DatabaseCache
  | s, [] => .ok s
  | s, sc :: rest =>
    match s.setitem sc.time sc.key sc.value with
    | .error e => .error e
    | .ok s' => setAll s' rest

/-! ### Helper lemmas about the dict model -/

theorem dictGet_dictSet_self (c : Storage) (k : Nat) (v : Item) :
    dictGet (dictSet c k v) k = some v := by
  induction c with
  | nil => simp [dictSet, dictGet]
  | cons p rest ih =>
    obtain ⟨k', v'⟩ := p
    by_cases h : k' = k <;> simp [dictSet, dictGet, h, ih]

theorem dictContains_cons (k' : Nat) (v' : Item) (rest : Storage) (k : Nat) :
    dictContains ((k', v') :: rest) k = (decide (k' = k) || dictContains rest k) := by
  simp [dictContains]

theorem dictContains_append (c d : Storage) (k : Nat) :
    dictContains (c ++ d) k = (dictContains c k || dictContains d k) := by
  simp [dictContains]

theorem dictSet_of_not_contains (c : Storage) (k : Nat) (v : Item)
    (h : dictContains c k = false) : dictSet c k v = c ++ [(k, v)] := by
  induction c with
  | nil => simp [dictSet]
  | cons p rest ih =>
    obtain ⟨k', v'⟩ := p
    rw [dictContains_cons] at h
    simp only [Bool.or_eq_false_iff, decide_eq_false_iff_not] at h
    simp [dictSet, h.1, ih h.2]

theorem dictGet_none_of_not_contains (c : Storage) (k : Nat)
    (h : dictContains c k = false) : dictGet c k = none := by
  induction c with
  | nil => simp [dictGet]
  | cons p rest ih =>
    obtain ⟨k', v'⟩ := p
    rw [dictContains_cons] at h
    simp only [Bool.or_eq_false_iff, decide_eq_false_iff_not] at h
    simp [dictGet, h.1, ih h.2]

theorem dictPop_cons_self (k : Nat) (v : Item) (rest : Storage) :
    dictPop ((k, v) :: rest) k = some rest := by
  simp [dictPop, dictContains, dictErase]

/-! ### Helper lemmas about the cache operations -/

theorem remove_invalid_ttl {s s1 : DatabaseCache} {now : Nat}
    (h : s.remove_invalid now = .ok s1) : s1.time_to_live = s.time_to_live := by
  unfold DatabaseCache.remove_invalid at h
  cases hs : sweepRev s.time_to_live now s.cache s.history.reverse with
  | error e => rw [hs] at h; cases h
  | ok p => rw [hs] at h; cases h; rfl

/-- After a successful `set`, the TTL is unchanged and the key holds the new
envelope `(value, now)`. -/
theorem setitem_ok {s s' : DatabaseCache} {now k v : Nat}
    (h : s.setitem now k v = .ok s') :
    s'.time_to_live = s.time_to_live ∧
      dictGet s'.cache k = some { value := v, date := some now } := by
  unfold DatabaseCache.setitem at h
  cases hr : s.remove_invalid now with
  | error e => rw [hr] at h; cases h
  | ok s1 =>
    rw [hr] at h
    have httl := remove_invalid_ttl hr
    by_cases hc : dictContains s1.cache k
    · simp [hc] at h
      subst h
      exact ⟨httl, dictGet_dictSet_self _ _ _⟩
    · simp only [Bool.not_eq_true] at hc
      simp [hc] at h
      subst h
      exact ⟨httl, dictGet_dictSet_self _ _ _⟩

/-- A sweep whose oldest entry has not expired changes nothing. -/
theorem sweepRev_stop (ttl : Int) (now : Nat) (c : Storage) (e : HistEntry)
    (rest : List HistEntry) (h : has_expired ttl now e.date = false) :
    sweepRev ttl now c (e :: rest) = .ok (c, e :: rest) := by
  simp [sweepRev, h]

/-- The sweep `_remove_invalid` is the identity when every history entry is unexpired. -/
theorem remove_invalid_noop {s : DatabaseCache} {now : Nat}
    (h : ∀ e ∈ s.history, has_expired s.time_to_live now e.date = false) :
    s.remove_invalid now = .ok s := by
  unfold DatabaseCache.remove_invalid
  cases hh : s.history.reverse with
  | nil =>
    have : s.history = [] := by
      simpa using congrArg List.reverse hh
    simp only [sweepRev, List.reverse_nil, Except.ok.injEq]
    rw [← this]
  | cons e t =>
    have he : e ∈ s.history := by
      have : e ∈ s.history.reverse := by rw [hh]; exact List.mem_cons_self _ _
      simpa using this
    rw [sweepRev_stop _ _ _ _ _ (h e he)]
    have : (e :: t).reverse = s.history := by
      rw [← hh]; exact List.reverse_reverse _
    simp [this]

theorem dictContains_eq_mem (c : Storage) (k : Nat) :
    dictContains c k = true ↔ k ∈ c.map Prod.fst := by
  simp only [dictContains, List.any_eq_true, List.mem_map, decide_eq_true_eq]

theorem dictGet_dictErase_self (c : Storage) (k : Nat)
    (h : (c.map Prod.fst).Nodup) : dictGet (dictErase c k) k = none := by
  induction c with
  | nil => simp [dictErase, dictGet]
  | cons p rest ih =>
    obtain ⟨k', v'⟩ := p
    simp only [List.map_cons, List.nodup_cons] at h
    by_cases hk : k' = k
    · subst hk
      have hrest : dictContains rest k' = false := by
        cases hc : dictContains rest k' with
        | false => rfl
        | true => exact absurd ((dictContains_eq_mem rest k').mp hc) h.1
      simp [dictErase, dictGet_none_of_not_contains rest k' hrest]
    · simp [dictErase, hk, dictGet, ih h.2]

theorem dictContains_map_eq_false (l : List SetCall) (k : Nat)
    (h : ∀ sc ∈ l, sc.key ≠ k) :
    dictContains (l.map SetCall.toPair) k = false := by
  induction l with
  | nil => rfl
  | cons sc rest ih =>
    simp only [List.map_cons, SetCall.toPair, dictContains_cons]
    rw [decide_eq_false (h sc (List.mem_cons_self _ _)),
      ih (fun x hx => h x (List.mem_cons_of_mem _ hx))]
    rfl

/-- Setting a sequence of fresh, pairwise-distinct keys, each call within the
TTL of everything already recorded, succeeds, appends the envelopes to storage
in call order and pushes the history entries most-recent-first. -/
theorem setAll_spec (kvs : List SetCall) :
    ∀ s : DatabaseCache,
      (∀ e ∈ s.history, ∃ d, e.date = some d ∧
        ∀ sc ∈ kvs, ((sc.time : Int) - (d : Int)) ≤ s.time_to_live) →
      (∀ sc ∈ kvs, dictContains s.cache sc.key = false) →
      List.Pairwise (fun x y => x.key ≠ y.key ∧
        ((y.time : Int) - (x.time : Int)) ≤ s.time_to_live) kvs →
      setAll s kvs = .ok ⟨s.time_to_live,
        s.cache ++ kvs.map SetCall.toPair,
        (kvs.map SetCall.toEntry).reverse ++ s.history⟩ := by
  induction kvs with
  | nil =>
    intro s hHist hFresh hPar
    simp [setAll]
  | cons sc rest ih =>
    intro s hHist hFresh hPar
    have hnoop : s.remove_invalid sc.time = .ok s := by
      apply remove_invalid_noop
      intro e he
      obtain ⟨d, hd, hall⟩ := hHist e he
      rw [hd]
      simp only [has_expired, decide_eq_false_iff_not, not_lt]
      exact hall sc (List.mem_cons_self _ _)
    have hnew : dictContains s.cache sc.key = false :=
      hFresh sc (List.mem_cons_self _ _)
    have hset : s.setitem sc.time sc.key sc.value =
        .ok ⟨s.time_to_live, s.cache ++ [sc.toPair], sc.toEntry :: s.history⟩ := by
      unfold DatabaseCache.setitem
      rw [hnoop]
      simp [hnew, dictSet_of_not_contains _ _ _ hnew, SetCall.toPair, SetCall.toEntry]
    have hpar' := List.pairwise_cons.mp hPar
    have ihres := ih ⟨s.time_to_live, s.cache ++ [sc.toPair], sc.toEntry :: s.history⟩
      (by
        intro e he
        rcases List.mem_cons.mp he with he | he
        · refine ⟨sc.time, by rw [he]; rfl, ?_⟩
          intro x hx
          exact (hpar'.1 x hx).2
        · obtain ⟨d, hd, hall⟩ := hHist e he
          exact ⟨d, hd, fun x hx => hall x (List.mem_cons_of_mem _ hx)⟩)
      (by
        intro x hx
        have h1 : dictContains s.cache x.key = false :=
          hFresh x (List.mem_cons_of_mem _ hx)
        have h2 : sc.key ≠ x.key := (hpar'.1 x hx).1
        rw [dictContains_append, h1]
        simp [dictContains, SetCall.toPair, h2])
      hpar'.2
    simp only [setAll, hset, ihres]
    simp [List.append_assoc, List.reverse_cons]

/-- A sweep whose storage and oldest-first history both start with the same
expired run removes exactly that run and continues on the remainder. -/
theorem sweepRev_drain (ttl : Int) (T : Nat) (stale : List SetCall) :
    ∀ (keep : Storage) (rest : List HistEntry),
      (∀ sc ∈ stale, ((T : Int) - (sc.time : Int)) > ttl) →
      sweepRev ttl T (stale.map SetCall.toPair ++ keep)
          (stale.map SetCall.toEntry ++ rest) =
        sweepRev ttl T keep rest := by
  induction stale with
  | nil => intro keep rest h; simp
  | cons sc stl ih =>
    intro keep rest h
    have he : has_expired ttl T (some sc.time) = true := by
      simp only [has_expired, decide_eq_true_eq]
      exact h sc (List.mem_cons_self _ _)
    simp only [List.map_cons, List.cons_append, sweepRev, SetCall.toEntry,
      SetCall.toPair, he, if_true, dictPop_cons_self]
    exact ih keep rest (fun x hx => h x (List.mem_cons_of_mem _ hx))

/-! ### Claims -/

/-- C1: on a TTL cache, `set(key, value)` followed by `get(key)` before the
time-to-live has elapsed returns exactly the stored value, unwrapped from the
internal `(value, writtenAt)` envelope. -/
theorem C1_set_get_round_trip (s s' : DatabaseCache) (now now' k v : Nat)
    (hset : s.setitem now k v = .ok s')
    (hfresh : has_expired s.time_to_live now' (some now) = false) :
    s'.getitem now' k = .ok v := by
  obtain ⟨httl, hget⟩ := setitem_ok hset
  simp [DatabaseCache.getitem, DatabaseCache.is_valid, hget, httl, hfresh]

/-- Witness for C1: a concrete set/get round trip within the TTL. -/
theorem C1_witness :
    DatabaseCache.setitem ⟨100, [], []⟩ 0 1 10 =
      .ok ⟨100, [(1, ⟨10, some 0⟩)], [⟨1, some 0⟩]⟩ ∧
    has_expired 100 50 (some 0) = false ∧
    DatabaseCache.getitem ⟨100, [(1, ⟨10, some 0⟩)], [⟨1, some 0⟩]⟩ 50 1 = .ok 10 :=
  ⟨rfl, rfl,
    C1_set_get_round_trip ⟨100, [], []⟩ ⟨100, [(1, ⟨10, some 0⟩)], [⟨1, some 0⟩]⟩
      0 50 1 10 rfl rfl⟩

/-- C2: `get(key)` fails with `KeyError` (NotFound) exactly when the key is
absent from storage or its stored timestamp has expired; in particular, once
the clock passes `time_to_live` after a `set(key, value)` with no intervening
set, `get(key)` fails with `KeyError`. -/
theorem C2_get_notfound_iff :
    (∀ (s : DatabaseCache) (now k : Nat),
      s.getitem now k = .error .keyError ↔
        dictGet s.cache k = none ∨
          ∃ item, dictGet s.cache k = some item ∧
            has_expired s.time_to_live now item.date = true) ∧
    (∀ (s s' : DatabaseCache) (now now' k v : Nat),
      s.setitem now k v = .ok s' →
      ((now' : Int) - (now : Int)) > s.time_to_live →
      s'.getitem now' k = .error .keyError) := by
  constructor
  · intro s now k
    unfold DatabaseCache.getitem DatabaseCache.is_valid
    cases hg : dictGet s.cache k with
    | none => simp
    | some item =>
      cases he : has_expired s.time_to_live now item.date with
      | true => simp [he]
      | false => simp [he]
  · intro s s' now now' k v hset hlate
    obtain ⟨httl, hget⟩ := setitem_ok hset
    simp [DatabaseCache.getitem, DatabaseCache.is_valid, hget, httl, has_expired, hlate]

/-- Witness for C2: a concrete set whose entry has expired at read time. -/
theorem C2_witness :
    DatabaseCache.setitem ⟨100, [], []⟩ 0 1 10 =
      .ok ⟨100, [(1, ⟨10, some 0⟩)], [⟨1, some 0⟩]⟩ ∧
    ((201 : Int) - (0 : Int)) > 100 ∧
    DatabaseCache.getitem ⟨100, [(1, ⟨10, some 0⟩)], [⟨1, some 0⟩]⟩ 201 1 =
      .error .keyError :=
  ⟨rfl, by decide,
    C2_get_notfound_iff.2 ⟨100, [], []⟩ ⟨100, [(1, ⟨10, some 0⟩)], [⟨1, some 0⟩]⟩
      0 201 1 10 rfl (by decide)⟩

/-- C4: the eviction sweep runs at the start of every set and repeatedly
inspects the oldest (tail) history entry: an empty history is a no-op; a
non-expired tail entry stops the sweep with nothing removed; an expired tail
entry is removed from storage and popped from the history, and the sweep
recurses on the rest; a failing sweep propagates out of `set`. -/
theorem C4_sweep_behavior (now : Nat) :
    (∀ s : DatabaseCache, s.history = [] → s.remove_invalid now = .ok s) ∧
    (∀ (s : DatabaseCache) (front : List HistEntry) (e : HistEntry),
      s.history = front ++ [e] →
      has_expired s.time_to_live now e.date = false →
      s.remove_invalid now = .ok s) ∧
    (∀ (s : DatabaseCache) (front : List HistEntry) (e : HistEntry) (c' : Storage),
      s.history = front ++ [e] →
      has_expired s.time_to_live now e.date = true →
      dictPop s.cache e.key = some c' →
      s.remove_invalid now =
        DatabaseCache.remove_invalid ⟨s.time_to_live, c', front⟩ now) ∧
    (∀ (s : DatabaseCache) (k v : Nat) (e : CacheError),
      s.remove_invalid now = .error e → s.setitem now k v = .error e) := by
  refine ⟨?_, ?_, ?_, ?_⟩
  · intro s h
    exact remove_invalid_noop (by simp [h])
  · intro s front e h hexp
    unfold DatabaseCache.remove_invalid
    rw [h, List.reverse_append, List.reverse_singleton, List.singleton_append,
      sweepRev_stop _ _ _ _ _ hexp]
    simp [← h]
  · intro s front e c' h hexp hpop
    unfold DatabaseCache.remove_invalid
    rw [h, List.reverse_append, List.reverse_singleton, List.singleton_append]
    simp [sweepRev, hexp, hpop]
  · intro s k v e h
    unfold DatabaseCache.setitem
    rw [h]

/-- Witness for C4: a fresh tail entry stops the sweep; an expired tail entry
is evicted and the sweep recurses. -/
theorem C4_witness :
    DatabaseCache.remove_invalid ⟨100, [(1, ⟨10, some 0⟩)], [⟨1, some 0⟩]⟩ 50 =
      .ok ⟨100, [(1, ⟨10, some 0⟩)], [⟨1, some 0⟩]⟩ ∧
    DatabaseCache.remove_invalid ⟨100, [(1, ⟨10, some 0⟩)], [⟨1, some 0⟩]⟩ 200 =
      DatabaseCache.remove_invalid ⟨100, [], []⟩ 200 :=
  ⟨(C4_sweep_behavior 50).2.1 _ [] ⟨1, some 0⟩ rfl rfl,
   (C4_sweep_behavior 200).2.2.1 _ [] ⟨1, some 0⟩ [] rfl rfl rfl⟩

/-- C5: contrary to the claim that `set` never fails, the reachable state left
by `set(1, 10)` at t=0, then `delete(1)`, makes `set(2, 20)` at t=200 (after
the TTL of 100 has elapsed) raise `KeyError`: the sweep pops the history-tail
key from storage, but `delete` removed the key from storage without removing
its history entry. -/
theorem C5_set_crashes_after_delete :
    DatabaseCache.mk_new (.timeSpan 100) = .ok ⟨100, [], []⟩ ∧
    DatabaseCache.setitem ⟨100, [], []⟩ 0 1 10 =
      .ok ⟨100, [(1, ⟨10, some 0⟩)], [⟨1, some 0⟩]⟩ ∧
    DatabaseCache.delitem ⟨100, [(1, ⟨10, some 0⟩)], [⟨1, some 0⟩]⟩ 1 =
      .ok ⟨100, [], [⟨1, some 0⟩]⟩ ∧
    DatabaseCache.setitem ⟨100, [], [⟨1, some 0⟩]⟩ 200 2 20 = .error .keyError :=
  ⟨rfl, rfl, rfl, rfl⟩

/-- C6 counterexample: deleting an absent key raises `KeyError` (the code uses
`self._cache.pop(key)` with no default), so the claim that it silently
succeeds is false. -/
theorem C6_counterexample_delete_absent :
    DatabaseCache.delitem ⟨100, [], []⟩ 1 = .error .keyError := rfl

/-- C6 (amended): `delete(key)` raises `KeyError` when the key is absent; when
the key is present it succeeds and removes the key from storage. -/
theorem C6_delete_semantics (s : DatabaseCache) (k : Nat) :
    (dictContains s.cache k = false → s.delitem k = .error .keyError) ∧
    (dictContains s.cache k = true →
      s.delitem k = .ok { s with cache := dictErase s.cache k } ∧
      ((s.cache.map Prod.fst).Nodup → dictGet (dictErase s.cache k) k = none)) := by
  constructor
  · intro h
    simp [DatabaseCache.delitem, dictPop, h]
  · intro h
    refine ⟨by simp [DatabaseCache.delitem, dictPop, h], ?_⟩
    intro hnodup
    exact dictGet_dictErase_self _ _ hnodup

/-- Witness for C6: a concrete absent-key failure and present-key removal. -/
theorem C6_witness :
    DatabaseCache.delitem ⟨100, [], []⟩ 2 = .error .keyError ∧
    (DatabaseCache.delitem ⟨100, [(1, ⟨10, some 0⟩)], [⟨1, some 0⟩]⟩ 1 =
        .ok ⟨100, dictErase ([(1, ⟨10, some 0⟩)] : Storage) 1, [⟨1, some 0⟩]⟩ ∧
      ((([(1, ⟨10, some 0⟩)] : Storage).map Prod.fst).Nodup →
        dictGet (dictErase ([(1, ⟨10, some 0⟩)] : Storage) 1) 1 = none)) :=
  ⟨(C6_delete_semantics ⟨100, [], []⟩ 2).1 rfl,
   (C6_delete_semantics ⟨100, [(1, ⟨10, some 0⟩)], [⟨1, some 0⟩]⟩ 1).2 rfl⟩

/-- C8: `has_expired(timestamp)` is true exactly when the timestamp is
null/missing or `now - timestamp` strictly exceeds the TTL; a null timestamp is
always expired, and an age of exactly `time_to_live` is not expired. -/
theorem C8_has_expired_spec (ttl : Int) (now : Nat) :
    (∀ d : Option Nat, has_expired ttl now d = true ↔
      d = none ∨ ∃ t, d = some t ∧ ((now : Int) - (t : Int)) > ttl) ∧
    has_expired ttl now none = true ∧
    (∀ t : Nat, ((now : Int) - (t : Int)) = ttl →
      has_expired ttl now (some t) = false) := by
  refine ⟨?_, rfl, ?_⟩
  · intro d
    cases d with
    | none => simp [has_expired]
    | some t => simp [has_expired]
  · intro t h
    simp [has_expired, h]

/-- Witness for C8: concrete expired, null and exactly-at-TTL timestamps. -/
theorem C8_witness :
    (has_expired 5 7 (some 1) = true ↔
      (some 1 : Option Nat) = none ∨
        ∃ t, (some 1 : Option Nat) = some t ∧ ((7 : Int) - (t : Int)) > 5) ∧
    has_expired 5 7 none = true ∧
    ((7 : Int) - ((2 : Nat) : Int)) = 5 ∧
    has_expired 5 7 (some 2) = false :=
  ⟨(C8_has_expired_spec 5 7).1 (some 1), (C8_has_expired_spec 5 7).2.1,
   by decide, (C8_has_expired_spec 5 7).2.2 2 (by decide)⟩

/-- C9: the constructor fails with `ValueError` if and only if the argument is
not a `System.TimeSpan`; otherwise it stores the TTL with empty storage and
empty history, and no later operation changes the stored TTL. -/
theorem C9_constructor_spec :
    (∀ t : Int, DatabaseCache.mk_new (.timeSpan t) =
      .ok { time_to_live := t, cache := [], history := [] }) ∧
    (∀ arg : TTLArg, (∀ t, arg ≠ .timeSpan t) →
      DatabaseCache.mk_new arg = .error .valueError) ∧
    (∀ (s s' : DatabaseCache) (now k v : Nat),
      s.setitem now k v = .ok s' → s'.time_to_live = s.time_to_live) ∧
    (∀ (s s' : DatabaseCache) (k : Nat),
      s.delitem k = .ok s' → s'.time_to_live = s.time_to_live) ∧
    (∀ s : DatabaseCache, s.clear.time_to_live = s.time_to_live) := by
  refine ⟨fun t => rfl, ?_, ?_, ?_, fun s => rfl⟩
  · intro arg h
    cases arg with
    | timeSpan t => exact absurd rfl (h t)
    | notTimeSpan => rfl
  · intro s s' now k v h
    exact (setitem_ok h).1
  · intro s s' k h
    unfold DatabaseCache.delitem at h
    cases hp : dictPop s.cache k with
    | none => rw [hp] at h; cases h
    | some c => rw [hp] at h; cases h; rfl

/-- Witness for C9: a rejected non-TimeSpan argument and a TTL-preserving set
and delete. -/
theorem C9_witness :
    DatabaseCache.mk_new .notTimeSpan = .error .valueError ∧
    (⟨100, [(1, ⟨10, some 0⟩)], [⟨1, some 0⟩]⟩ : DatabaseCache).time_to_live =
      (⟨100, [], []⟩ : DatabaseCache).time_to_live ∧
    (⟨100, [], [⟨1, some 0⟩]⟩ : DatabaseCache).time_to_live =
      (⟨100, [(1, ⟨10, some 0⟩)], [⟨1, some 0⟩]⟩ : DatabaseCache).time_to_live :=
  ⟨C9_constructor_spec.2.1 .notTimeSpan (fun _ h => TTLArg.noConfusion h),
   C9_constructor_spec.2.2.1 ⟨100, [], []⟩ _ 0 1 10 rfl,
   C9_constructor_spec.2.2.2.1 ⟨100, [(1, ⟨10, some 0⟩)], [⟨1, some 0⟩]⟩ _ 1 rfl⟩

/-- C3: set `a`, then `b`, then re-set `a`: the re-set overwrites `a`'s stored
value and timestamp but leaves the history untouched (no reorder, no
duplicate, original timestamp kept), so when `a`'s original first-write age
exceeds the TTL while `b`'s does not, a later sweep still evicts `a` from
storage before `b` (FIFO by original insertion, not LRU). -/
theorem C3_refresh_keeps_fifo (ttl : Int) (a b va vb va2 t0 t1 t2 T : Nat)
    (hab : a ≠ b)
    (h10 : ((t1 : Int) - (t0 : Int)) ≤ ttl)
    (h20 : ((t2 : Int) - (t0 : Int)) ≤ ttl)
    (hTa : ((T : Int) - (t0 : Int)) > ttl)
    (hTb : ((T : Int) - (t1 : Int)) ≤ ttl) :
    setAll ⟨ttl, [], []⟩ [⟨a, va, t0⟩, ⟨b, vb, t1⟩, ⟨a, va2, t2⟩] =
      .ok ⟨ttl, [(a, ⟨va2, some t2⟩), (b, ⟨vb, some t1⟩)],
        [⟨b, some t1⟩, ⟨a, some t0⟩]⟩ ∧
    DatabaseCache.remove_invalid
        ⟨ttl, [(a, ⟨va2, some t2⟩), (b, ⟨vb, some t1⟩)],
          [⟨b, some t1⟩, ⟨a, some t0⟩]⟩ T =
      .ok ⟨ttl, [(b, ⟨vb, some t1⟩)], [⟨b, some t1⟩]⟩ := by
  have e10 : has_expired ttl t1 (some t0) = false := by
    simp only [has_expired, decide_eq_false_iff_not, not_lt]; exact h10
  have e20 : has_expired ttl t2 (some t0) = false := by
    simp only [has_expired, decide_eq_false_iff_not, not_lt]; exact h20
  have eTa : has_expired ttl T (some t0) = true := by
    simp only [has_expired, decide_eq_true_eq]; exact hTa
  have eTb : has_expired ttl T (some t1) = false := by
    simp only [has_expired, decide_eq_false_iff_not, not_lt]; exact hTb
  have s1eq : DatabaseCache.setitem ⟨ttl, [], []⟩ t0 a va =
      .ok ⟨ttl, [(a, ⟨va, some t0⟩)], [⟨a, some t0⟩]⟩ := rfl
  have s2eq : DatabaseCache.setitem ⟨ttl, [(a, ⟨va, some t0⟩)], [⟨a, some t0⟩]⟩ t1 b vb =
      .ok ⟨ttl, [(a, ⟨va, some t0⟩), (b, ⟨vb, some t1⟩)],
        [⟨b, some t1⟩, ⟨a, some t0⟩]⟩ := by
    unfold DatabaseCache.setitem DatabaseCache.remove_invalid
    simp [sweepRev, e10, dictContains, dictSet, hab]
  have s3eq : DatabaseCache.setitem
      ⟨ttl, [(a, ⟨va, some t0⟩), (b, ⟨vb, some t1⟩)],
        [⟨b, some t1⟩, ⟨a, some t0⟩]⟩ t2 a va2 =
      .ok ⟨ttl, [(a, ⟨va2, some t2⟩), (b, ⟨vb, some t1⟩)],
        [⟨b, some t1⟩, ⟨a, some t0⟩]⟩ := by
    unfold DatabaseCache.setitem DatabaseCache.remove_invalid
    simp [sweepRev, e20, dictContains, dictSet]
  refine ⟨?_, ?_⟩
  · simp only [setAll, s1eq, s2eq, s3eq]
  · unfold DatabaseCache.remove_invalid
    simp [sweepRev, eTa, eTb, dictPop, dictContains, dictErase]

/-- Witness for C3: a concrete run with TTL 10, first writes at t=0 and t=5, a
refresh of the first key at t=8, and a sweep at t=12. -/
theorem C3_witness :
    setAll ⟨10, [], []⟩ [⟨1, 11, 0⟩, ⟨2, 12, 5⟩, ⟨1, 99, 8⟩] =
      .ok ⟨10, [(1, ⟨99, some 8⟩), (2, ⟨12, some 5⟩)],
        [⟨2, some 5⟩, ⟨1, some 0⟩]⟩ ∧
    DatabaseCache.remove_invalid
        ⟨10, [(1, ⟨99, some 8⟩), (2, ⟨12, some 5⟩)],
          [⟨2, some 5⟩, ⟨1, some 0⟩]⟩ 12 =
      .ok ⟨10, [(2, ⟨12, some 5⟩)], [⟨2, some 5⟩]⟩ :=
  C3_refresh_keeps_fifo 10 1 2 11 12 99 0 5 8 12 (by decide) (by decide)
    (by decide) (by decide) (by decide)

/-- C7: `size()` is the raw storage count, expired-but-unswept entries
included: after N distinct `set` calls within the TTL the size is N; when the
oldest M of them have expired and a further `set` of a fresh key triggers a
sweep, the size is the number of unexpired entries plus one. -/
theorem C7_size_bookkeeping (ttl : Int) :
    (∀ kvs : List SetCall,
      List.Pairwise (fun x y => x.key ≠ y.key ∧
        ((y.time : Int) - (x.time : Int)) ≤ ttl) kvs →
      ∃ s' : DatabaseCache, setAll ⟨ttl, [], []⟩ kvs = .ok s' ∧
        s'.size = kvs.length) ∧
    (∀ (stale fresh : List SetCall) (knew vnew T : Nat),
      List.Pairwise (fun x y => x.key ≠ y.key ∧
        ((y.time : Int) - (x.time : Int)) ≤ ttl) (stale ++ fresh) →
      (∀ sc ∈ stale, ((T : Int) - (sc.time : Int)) > ttl) →
      (∀ sc ∈ fresh, ((T : Int) - (sc.time : Int)) ≤ ttl) →
      (∀ sc ∈ stale ++ fresh, sc.key ≠ knew) →
      ∃ s' s'' : DatabaseCache,
        setAll ⟨ttl, [], []⟩ (stale ++ fresh) = .ok s' ∧
        s'.setitem T knew vnew = .ok s'' ∧
        s''.size = fresh.length + 1) := by
  constructor
  · intro kvs hPar
    refine ⟨_, setAll_spec kvs ⟨ttl, [], []⟩ (by simp) (fun sc _ => rfl) hPar, ?_⟩
    simp [DatabaseCache.size]
  · intro stale fresh knew vnew T hPar hStale hFresh hKnew
    have hrun := setAll_spec (stale ++ fresh) ⟨ttl, [], []⟩ (by simp)
      (fun sc _ => rfl) hPar
    simp only [List.nil_append, List.append_nil] at hrun
    have hsw : sweepRev ttl T (fresh.map SetCall.toPair) (fresh.map SetCall.toEntry) =
        .ok (fresh.map SetCall.toPair, fresh.map SetCall.toEntry) := by
      cases fresh with
      | nil => rfl
      | cons f fs =>
        simp only [List.map_cons]
        apply sweepRev_stop
        simp only [SetCall.toEntry, has_expired, decide_eq_false_iff_not, not_lt]
        exact hFresh f (List.mem_cons_self _ _)
    have hsweep : DatabaseCache.remove_invalid
        ⟨ttl, (stale ++ fresh).map SetCall.toPair,
          ((stale ++ fresh).map SetCall.toEntry).reverse⟩ T =
        .ok ⟨ttl, fresh.map SetCall.toPair, (fresh.map SetCall.toEntry).reverse⟩ := by
      unfold DatabaseCache.remove_invalid
      simp only [List.reverse_reverse, List.map_append]
      rw [sweepRev_drain ttl T stale (fresh.map SetCall.toPair) (fresh.map SetCall.toEntry)
        hStale, hsw]
    have hnew : dictContains (fresh.map SetCall.toPair) knew = false :=
      dictContains_map_eq_false fresh knew
        (fun sc hsc => hKnew sc (List.mem_append_right _ hsc))
    have hset : DatabaseCache.setitem
        ⟨ttl, (stale ++ fresh).map SetCall.toPair,
          ((stale ++ fresh).map SetCall.toEntry).reverse⟩ T knew vnew =
        .ok ⟨ttl, fresh.map SetCall.toPair ++ [(knew, ⟨vnew, some T⟩)],
          ⟨knew, some T⟩ :: (fresh.map SetCall.toEntry).reverse⟩ := by
      unfold DatabaseCache.setitem
      rw [hsweep]
      simp [hnew, dictSet_of_not_contains _ _ _ hnew]
    exact ⟨_, _, hrun, hset, by simp [DatabaseCache.size]⟩

/-- Witness for C7: three distinct sets within TTL 10 give size 3; after the
two oldest expire, a further set at t=15 sweeps them and leaves size 2. -/
theorem C7_witness :
    (∃ s' : DatabaseCache,
      setAll ⟨10, [], []⟩ [⟨1, 11, 0⟩, ⟨2, 12, 1⟩, ⟨3, 13, 8⟩] = .ok s' ∧
        s'.size = 3) ∧
    (∃ s' s'' : DatabaseCache,
      setAll ⟨10, [], []⟩ ([⟨1, 11, 0⟩, ⟨2, 12, 1⟩] ++ [⟨3, 13, 8⟩]) = .ok s' ∧
      s'.setitem 15 4 14 = .ok s'' ∧
      s''.size = 1 + 1) :=
  ⟨(C7_size_bookkeeping 10).1 [⟨1, 11, 0⟩, ⟨2, 12, 1⟩, ⟨3, 13, 8⟩] (by decide),
   (C7_size_bookkeeping 10).2 [⟨1, 11, 0⟩, ⟨2, 12, 1⟩] [⟨3, 13, 8⟩] 4 14 15
     (by decide) (by decide) (by decide) (by decide)⟩

/-- C10: the eviction sweep terminates: with an iteration budget exceeding the
history length, the budgeted loop finishes (each iteration consumes one history
entry) and computes the same result as the sweep. -/
theorem C10_sweep_terminates (ttl : Int) (now : Nat) :
    ∀ (fuel : Nat) (c : Storage) (h : List HistEntry), h.length < fuel →
      sweepRevFuel ttl now fuel c h = some (sweepRev ttl now c h) := by
  intro fuel c h
  induction h generalizing fuel c with
  | nil =>
    intro hf
    cases fuel with
    | zero => omega
    | succ f => rfl
  | cons e rest ih =>
    intro hf
    cases fuel with
    | zero => omega
    | succ f =>
      simp only [sweepRevFuel, sweepRev]
      cases he : has_expired ttl now e.date with
      | false => simp [he]
      | true =>
        simp only [he, if_true]
        cases hp : dictPop c e.key with
        | none => rfl
        | some c' =>
          have : rest.length < f := by
            simpa using Nat.lt_of_succ_lt_succ hf
          exact ih f c' this

/-- Witness for C10: the budgeted sweep at a concrete state finishes within the
history length. -/
theorem C10_witness :
    ([(⟨1, some 0⟩ : HistEntry)].length < 2) ∧
    sweepRevFuel 100 200 2 [(1, ⟨10, some 0⟩)] [⟨1, some 0⟩] =
      some (sweepRev 100 200 [(1, ⟨10, some 0⟩)] [⟨1, some 0⟩]) :=
  ⟨by decide, C10_sweep_terminates 100 200 2 [(1, ⟨10, some 0⟩)] [⟨1, some 0⟩] (by decide)⟩

end SqlWrapper
